import Mathlib

/-
Verification of the `aamm` testing subsystem.

Shallow embedding of `src/aamm/_/testing/testsuite.py` and its collaborators
(`src/aamm/_/file_system.py`, `src/aamm/_/string.py`), plus the discovery loop
of `src/aamm/scripts/run_tests.py`.  Python machine details are modelled as:
strings are Lean `String`s, the filesystem is an explicit collaborator value,
`time.perf_counter` is an integer tick clock threaded through execution, and a
Python callable that can mutate shared state, consume time and raise is a
function `sigma -> sigma x Nat x Option PyExn`.
-/

namespace Aamm

/-! ### Strings: `aamm._.string.right_replace`

`right_replace(string, old, new, count=1)` is implemented in the source as
`string[::-1].replace(old[::-1], new[::-1], count)[::-1]`, i.e. replace the
last occurrence (for `count = 1`).  `replaceFirstL` models Python
`str.replace(old, new, 1)` on reversed character lists: it replaces the
leftmost occurrence of `old`, and an empty `old` matches at position 0. -/

def replaceFirstL (old new : List Char) : List Char → List Char
  | [] => if old.isPrefixOf ([] : List Char) then new else []
  | c :: cs =>
      if old.isPrefixOf (c :: cs) then new ++ (c :: cs).drop old.length
      else c :: replaceFirstL old new cs

/-- `aamm._.string.right_replace` with the default `count = 1`:
replace the last occurrence of `old` in `string` by `new`. -/
def right_replace (s old new : String) : String :=
  String.mk (replaceFirstL old.data.reverse new.data.reverse s.data.reverse).reverse

/-! ### The filesystem collaborator

`aamm.file_system` queries the real OS; the claims are about behaviour for an
arbitrary filesystem state, so the filesystem is modelled as the sets of
existing file paths and existing directory paths. -/

structure FS where
  files : List String
  dirs : List String

/-- `aamm.file_system.is_file` (`os.path.isfile`). -/
def FS.is_file (fs : FS) (p : String) : Bool := fs.files.contains p

/-- `aamm.file_system.is_directory` (`os.path.isdir`). -/
def FS.is_directory (fs : FS) (p : String) : Bool := fs.dirs.contains p

/-- `aamm.file_system.exists` (`os.path.exists`): a path exists when it is an
existing file or an existing directory. -/
def FS.pexists (fs : FS) (p : String) : Bool :=
  fs.files.contains p || fs.dirs.contains p

/-- `os.path.sep` on the platform the suite runs on. -/
def SEP : String := "/"

/-- `str.split(sep)` for a single-character separator, on character lists
(structural, so it evaluates inside the kernel). -/
def splitChars (sep : Char) : List Char → List (List Char)
  | [] => [[]]
  | c :: cs =>
      match splitChars sep cs with
      | [] => [[c]]
      | p :: ps => if c == sep then [] :: p :: ps else (c :: p) :: ps

/-- `path.split(SEP)`. -/
def pathParts (p : String) : List String :=
  (splitChars '/' p.data).map String.mk

/-- `aamm.file_system.leaf` (`os.path.basename`): the part after the last
separator. -/
def leaf (p : String) : String := (pathParts p).getLastD ""

/-- Index of the last occurrence of `c` in `l`, or `-1` when absent
(Python `str.rfind`). -/
def rfindIdx (l : List Char) (c : Char) : Int :=
  match l with
  | [] => -1
  | a :: as =>
      let r := rfindIdx as c
      if r ≥ 0 then r + 1 else if a == c then 0 else -1

/-- `aamm.file_system.extension`: `""` for a directory; otherwise the part of
the leaf after the last dot, provided that dot is not the leading character. -/
def extension (fs : FS) (p : String) : String :=
  if fs.is_directory p then ""
  else
    let lf := (leaf p).data
    let i := rfindIdx lf '.'
    if i > 0 then String.mk (lf.drop (i.toNat + 1)) else ""

/-- `aamm.file_system.has_extension path ext` for an explicit `ext`
(the source compares `extension == obtained`). -/
def has_extension (fs : FS) (p ext : String) : Bool := ext == extension fs p

/-- `aamm.file_system.remove_extension`:
`path.removesuffix("." + extension(path))`. -/
def remove_extension (fs : FS) (p : String) : String :=
  let suf := "." ++ extension fs p
  if suf.data.isSuffixOf p.data then String.mk (p.data.take (p.length - suf.length))
  else p

/-- `aamm.file_system.segment path index`: `leaf` for `index = -1`, otherwise
`path.split(SEP)[index]` with Python indexing; `none` models the `IndexError`
raised on an out-of-range index. -/
def segment (p : String) (index : Int) : Option String :=
  if index == -1 then some (leaf p)
  else
    let parts := pathParts p
    let i : Int := if index < 0 then (parts.length : Int) + index else index
    if i < 0 then none else parts[i.toNat]?

instance {ε α : Type} [DecidableEq ε] [DecidableEq α] : DecidableEq (Except ε α) :=
  fun x y =>
    match x, y with
    | .ok a, .ok b =>
        if h : a = b then isTrue (by rw [h])
        else isFalse (by intro hh; cases hh; exact h rfl)
    | .error a, .error b =>
        if h : a = b then isTrue (by rw [h])
        else isFalse (by intro hh; cases hh; exact h rfl)
    | .ok _, .error _ => isFalse (by intro hh; cases hh)
    | .error _, .ok _ => isFalse (by intro hh; cases hh)

/-! ### Constants of `aamm._.testing.testsuite` -/

def TEST_DIRECTORY_NAME : String := "__tests"

/-- `TEST_PATH_JOIN = f"{TEST_DIRECTORY_NAME}{fs.SEP}"`. -/
def TEST_PATH_JOIN : String := TEST_DIRECTORY_NAME ++ SEP

/-! ### Exceptions

A raised Python exception, as observed by the runner: its type's qualified
name, its message, and its extracted (nonempty) traceback. -/

structure Frame where
  name : String
  lineno : Nat
  colno : Nat
deriving DecidableEq, Repr

structure PyExn where
  error_name : String
  error_message : String
  tbHead : Frame
  tbRest : List Frame
deriving DecidableEq, Repr

/-- `traceback.extract_tb(exception.__traceback__)`; a real traceback is
nonempty, which the `tbHead`/`tbRest` split encodes. -/
def PyExn.tb (e : PyExn) : List Frame := e.tbHead :: e.tbRest

/-- `stack[-1]`. -/
def PyExn.lastFrame (e : PyExn) : Frame := e.tbRest.getLastD e.tbHead

/-- `is_test_file` (`testsuite.py` lines 186-198).  The source builds a tuple
of four checks and `all`s it; evaluating `fs.segment(path, -2)` raises
`IndexError` on a path with fewer than two segments, modelled as `.error`. -/
def is_test_file (fs : FS) (path : String) : Except String Bool :=
  let module_path := right_replace path TEST_PATH_JOIN ""
  let package_path := remove_extension fs module_path ++ SEP ++ "__init__.py"
  match segment path (-2) with
  | none => .error "IndexError"
  | some seg =>
      .ok (fs.is_file path && has_extension fs path "py" &&
           (seg == TEST_DIRECTORY_NAME) &&
           (fs.pexists module_path || fs.pexists package_path))

/-! ### Callables, tests, suites

A Python callable running against shared state `σ` consumes time (in integer
ticks of the monotonic `time.perf_counter` clock), may mutate the state, and
may raise; mutations made before a raise persist.  `Action σ` returns
`(new state, elapsed ticks, raised exception if any)`. -/

def Action (σ : Type) : Type := σ → σ × Nat × Option PyExn

/-- The `Test` dataclass (`testsuite.py` lines 29-57).  `run` is the stored
callable; since Lean functions carry no `__name__`, the value Python reads as
`test.run.__name__` is kept alongside it as `runName`.  The result fields
default to `None` as in the dataclass. -/
structure Test (σ : Type) where
  module_path : String
  suite_name : String
  test_name : String
  run : Action σ
  runName : String
  test_duration : Option Int := none
  where_ : Option String := none
  error_name : Option String := none
  error_message : Option String := none

/-- One entry of `vars(cls)`: whether the value is `callable`, the function's
`__name__`, and its behaviour. -/
structure Member (σ : Type) where
  callable : Bool
  name : String
  body : Action σ

/-- A concrete test-suite class as the runner sees it: its identity, its own
namespace `vars(cls)` (`members`, insertion-ordered), the members it inherits
from base classes (never consulted by `vars`), its constructor `cls()`, and
the four lifecycle hooks.  `initialize` is spelled `initializeHook` for
lexical reasons only. -/
structure Suite (σ : Type) where
  qualname : String
  module_path : String
  members : List (String × Member σ)
  inherited : List (String × Member σ) := []
  construct : σ
  initializeHook : Action σ
  before : Action σ
  after : Action σ
  terminate : Action σ

/-- `FakeTestSuite.collect_tests` (`testsuite.py` lines 103-119): iterate
`vars(cls).items()`, keep callable members whose key starts with
`TEST_PREFIX = "test_"`, and build a fresh `Test` record for each.  (The
source returns the pair `(cls, storage)`; the `storage` component is
modelled.) -/
def collect_tests {σ : Type} (S : Suite σ) : List (Test σ) :=
  S.members.filterMap fun m =>
    if m.2.callable && m.1.startsWith "test_" then
      some { module_path := S.module_path
             suite_name := S.qualname
             test_name := m.1
             run := m.2.body
             runName := m.2.name }
    else none

/-! ### The seeded shuffle

`run` calls `random.seed(seed)` then `random.shuffle(tests)`.  CPython's
`random.shuffle` is a Fisher-Yates loop
`for i in reversed(range(1, len(x))): j = randbelow(i+1); x[i], x[j] = x[j], x[i]`
driven by the seeded Mersenne Twister.  The Twister stream is modelled by a
64-bit linear congruential generator: the verified claims depend only on the
shuffle being a deterministic function of the seed with the Fisher-Yates
swap structure, never on concrete stream values.  `random.seed(None)` seeds
from the operating system; that entropy is an explicit parameter `entropy`
below. -/

def lcg (x : Nat) : Nat :=
  (x * 6364136223846793005 + 1442695040888963407) % (2 ^ 64)

/-- `random._randbelow(n)`: next PRNG state and a value in `[0, n)`. -/
def randbelow (st n : Nat) : Nat × Nat :=
  let st' := lcg st
  (st' % n, st')

/-- `x[i], x[j] = x[j], x[i]` on a list (no-op out of range, which the
shuffle loop never exercises). -/
def swapAt (l : List α) (i j : Nat) : List α :=
  match l[i]?, l[j]? with
  | some a, some b => (l.set i b).set j a
  | _, _ => l

/-- The Fisher-Yates loop, counting the index `i` down to 1. -/
def shuffleGo : Nat → Nat → List α → List α
  | 0, _, l => l
  | k + 1, st, l =>
      let r := randbelow st (k + 2)
      shuffleGo k r.2 (swapAt l (k + 1) r.1)

/-- `random.seed(seed); random.shuffle(l)`. -/
def pyShuffle (seed : Nat) (l : List α) : List α :=
  shuffleGo (l.length - 1) (lcg seed) l

/-! ### The runner (`FakeTestSuite.run`, `testsuite.py` lines 127-169) -/

/-- Observable hook and body invocations, in order.  A `bodyCall` records the
test's name and whether the body raised. -/
inductive Event
  | initializeCall
  | beforeCall
  | bodyCall (test_name : String) (raised : Bool)
  | afterCall
  | terminateCall
deriving DecidableEq, Repr

/-- The `except Exception` block (lines 149-161): find the first traceback
frame whose function name equals `test.run.__name__`, else `stack[-1]`
(the `for ... else` clause), and store the failure data on the test. -/
def recordFailure {σ : Type} (t : Test σ) (ex : PyExn) : Test σ :=
  let summary := (ex.tb.find? (fun fr => fr.name == t.runName)).getD ex.lastFrame
  { t with
    where_ := some (toString summary.lineno ++ ":" ++ toString summary.colno)
    error_name := some ex.error_name
    error_message := some ex.error_message }

structure StepOut (σ : Type) where
  events : List Event
  test : Test σ
  state : σ
  clock : Nat
  abort : Option PyExn

/-- One iteration of the `for test in tests` loop (lines 141-166):
`self.before()`; inside `try`: read the clock and call the body; the
`except` block records failure data; the `finally` calls `self.after()`;
then — after the `try/finally`, hence only when neither `before` nor
`after` raised — line 166 stores `perf_counter() - t` as the duration.
A raise from `before` or `after` aborts with that exception. -/
def runOneTest {σ : Type} (S : Suite σ) (t : Test σ) (s : σ) (c : Nat) : StepOut σ :=
  let (s1, d1, e1) := S.before s
  let c1 := c + d1
  match e1 with
  | some ex => ⟨[.beforeCall], t, s1, c1, some ex⟩
  | none =>
      let t0 := c1
      let (s2, d2, e2) := t.run s1
      let c2 := c1 + d2
      let t' := match e2 with
        | none => t
        | some ex => recordFailure t ex
      let (s3, d3, e3) := S.after s2
      let c3 := c2 + d3
      match e3 with
      | some ex3 => ⟨[.beforeCall, .bodyCall t.test_name e2.isSome, .afterCall], t', s3, c3, some ex3⟩
      | none =>
          ⟨[.beforeCall, .bodyCall t.test_name e2.isSome, .afterCall],
           { t' with test_duration := some ((c3 : Int) - (t0 : Int)) }, s3, c3, none⟩

structure RunOut (σ : Type) where
  events : List Event
  tests : List (Test σ)
  state : σ
  clock : Nat
  escaped : Option PyExn

/-- The `for test in tests` loop over the shuffled list.  An abort from a
hook stops the loop; the current and remaining tests stay in the list
unchanged past the point the abort interrupted. -/
def runTests {σ : Type} (S : Suite σ) : List (Test σ) → σ → Nat → RunOut σ
  | [], s, c => ⟨[], [], s, c, none⟩
  | t :: rest, s, c =>
      let st := runOneTest S t s c
      match st.abort with
      | some ex => ⟨st.events, st.test :: rest, st.state, st.clock, some ex⟩
      | none =>
          let r := runTests S rest st.state st.clock
          ⟨st.events ++ r.events, st.test :: r.tests, r.state, r.clock, r.escaped⟩

/-- `FakeTestSuite.run` (lines 127-169): shuffle with the given seed (`none`
models `seed=None`, drawing on ambient `entropy`), construct the single
shared instance, call `cls.initialize()` (outside the `try`, so a raise there
skips `terminate` and propagates), run the loop, and in the outer `finally`
call `cls.terminate()`; an exception raised by `terminate` replaces a pending
one. -/
def runSuite {σ : Type} (S : Suite σ) (tests : List (Test σ)) (entropy : Nat)
    (seed : Option Nat) (c0 : Nat) : RunOut σ :=
  let shuffled := pyShuffle (seed.getD entropy) tests
  let s0 := S.construct
  let (s1, d1, e1) := S.initializeHook s0
  let c1 := c0 + d1
  match e1 with
  | some ex => ⟨[.initializeCall], shuffled, s1, c1, some ex⟩
  | none =>
      let r := runTests S shuffled s1 c1
      let (s3, d3, e3) := S.terminate r.state
      ⟨[.initializeCall] ++ r.events ++ [.terminateCall], r.tests, s3, r.clock + d3,
       match e3 with
       | some ex3 => some ex3
       | none => r.escaped⟩

/-! ### Suite definition (`TestSuiteMeta.__init__`, `testsuite.py` lines 60-82)

The metaclass body runs once per class statement.  `fs.current_file` reads
the defining file from the interpreter stack; here the discovery mechanism's
answer is the explicit argument `definingFile`.  The global
`test_suite_registry` set is threaded as a list (each class statement creates
a fresh object, so plain append models `set.add`). -/

structure ClassDecl where
  name : String
  qualname : String
  home_path : Option String := none
  module_path : Option String := none
deriving DecidableEq, Repr

/-- `TestSuiteMeta.__init__`: a class literally named `"TestSuite"` returns
early, untouched and unregistered.  Otherwise `home_path` is set to the
defining file and validated with `is_test_file`; an invalid location raises
`RuntimeError` (the spec's `DefinitionError`) before the registry is touched;
a valid one gets `module_path` derived and is added to the registry.  The
result is `(the class or the raised exception, the updated registry)`. -/
def testSuiteMetaInit (fs : FS) (cls : ClassDecl) (definingFile : String)
    (registry : List ClassDecl) : Except PyExn ClassDecl × List ClassDecl :=
  if cls.name == "TestSuite" then (.ok cls, registry)
  else
    let cls1 := { cls with home_path := some definingFile }
    match is_test_file fs definingFile with
    | .error msg =>
        (.error ⟨msg, msg, ⟨"segment", 178, 0⟩, []⟩, registry)
    | .ok false =>
        (.error ⟨"RuntimeError",
                 cls1.qualname ++ " is not instantiated inside a valid test file",
                 ⟨"__init__", 76, 0⟩, []⟩, registry)
    | .ok true =>
        let cls2 := { cls1 with
                      module_path := some (right_replace definingFile TEST_PATH_JOIN "") }
        (.ok cls2, registry ++ [cls2])

/-! ### Discovery and aggregation

`aamm.scripts.run_tests.main` (lines 23-32) wraps each dynamic import in
`try/except Exception`, records a failure in `discovery_errors[path]`, and
continues with the next candidate file.  Importing a candidate file is an
opaque effect whose outcome is either the list of suites the file registers
or the exception the import raised; a candidate list abstracts the paths
`discover_tests` (`testsuite.py` lines 221-227) found and validated. -/

def discoverImports {σ : Type} :
    List (String × Except PyExn (List (Suite σ))) →
      List (Suite σ) × List (String × PyExn)
  | [] => ([], [])
  | (path, res) :: rest =>
      let r := discoverImports rest
      match res with
      | .ok suites => (suites ++ r.1, r.2)
      | .error e => (r.1, (path, e) :: r.2)

/-- `run_tests` (`testsuite.py` lines 238-241) over collected suites: each
suite collects its tests and runs them; an exception escaping `run` (a hook
failure) propagates out.  Returns the concatenated mutated test lists and
the final clock. -/
def runAllSuites {σ : Type} (entropy : Nat) (seed : Option Nat) :
    List (Suite σ) → Nat → Except PyExn (List (Test σ) × Nat)
  | [], c => .ok ([], c)
  | S :: rest, c =>
      let r := runSuite S (collect_tests S) entropy seed c
      match r.escaped with
      | some e => .error e
      | none =>
          match runAllSuites entropy seed rest r.clock with
          | .error e => .error e
          | .ok (ts, c') => .ok (r.tests ++ ts, c')

/-- `Test.__lt__` (lines 42-45): lexicographic comparison of
`(module_path, suite_name, test_name)`. -/
def testLt {σ : Type} (a b : Test σ) : Bool :=
  decide (a.module_path < b.module_path) ||
    (a.module_path == b.module_path &&
      (decide (a.suite_name < b.suite_name) ||
        (a.suite_name == b.suite_name && decide (a.test_name < b.test_name))))

def insertTest {σ : Type} (x : Test σ) : List (Test σ) → List (Test σ)
  | [] => [x]
  | y :: ys => if testLt x y then x :: y :: ys else y :: insertTest x ys

/-- `sorted(...)` over `Test.__lt__` (insertion sort; the claims depend on
the result being a sorted rearrangement, not on Timsort internals). -/
def sortTests {σ : Type} (l : List (Test σ)) : List (Test σ) :=
  l.foldr insertTest []

/-- The aggregator: the discovery loop of `aamm.scripts.run_tests.main`
(lines 23-32) composed with `main` of `testsuite.py` (lines 230-235) —
register suites from every importable candidate, record import failures per
path, run every registered suite, and return the sorted flattened report
together with the discovery-error table.  The `Except` layer carries any
exception the aggregation itself would let escape. -/
def mainModel {σ : Type} (cands : List (String × Except PyExn (List (Suite σ))))
    (entropy : Nat) (seed : Option Nat) (c0 : Nat) :
    Except PyExn (List (Test σ) × List (String × PyExn)) :=
  let d := discoverImports cands
  match runAllSuites entropy seed d.1 c0 with
  | .error e => .error e
  | .ok (ts, _) => .ok (sortTests ts, d.2)

/-! ### Vocabulary for the theorems -/

/-- A freshly collected test: all result fields still unset. -/
def Fresh {σ : Type} (t : Test σ) : Prop :=
  t.test_duration = none ∧ t.where_ = none ∧ t.error_name = none ∧
    t.error_message = none

/-- The lifecycle hooks of `S` never raise (test bodies may still raise
freely). -/
def HooksOk {σ : Type} (S : Suite σ) : Prop :=
  (∀ s, (S.before s).2.2 = none) ∧ (∀ s, (S.after s).2.2 = none) ∧
    (∀ s, (S.initializeHook s).2.2 = none) ∧ (∀ s, (S.terminate s).2.2 = none)

/-- The body-outcome flags of a trace, in execution order. -/
def bodyFlags (evs : List Event) : List Bool :=
  evs.filterMap fun e =>
    match e with
    | .bodyCall _ b => some b
    | _ => none

/-- Total number of tests the registered suites collect. -/
def totalTests {σ : Type} (suites : List (Suite σ)) : Nat :=
  (suites.map fun S => (collect_tests S).length).sum

/-- The per-test event pattern of a loop iteration whose hooks returned
normally: `before`, the body (with its outcome), `after`. -/
def tracePattern : List (String × Bool) → List Event
  | [] => []
  | nb :: rest => .beforeCall :: .bodyCall nb.1 nb.2 :: .afterCall :: tracePattern rest

/-- Replace every member's behaviour, touching nothing else — used to state
that collection is purely structural (it never runs a body). -/
def mapBodies {σ : Type} (g : Action σ → Action σ) (S : Suite σ) : Suite σ :=
  { S with members := S.members.map fun m => (m.1, { m.2 with body := g m.2.body }) }

/-! ### Concrete fixtures used by counterexamples and witnesses -/

/-- A filesystem on which both candidate source paths of
`pkg/__tests/mod.py` exist: the module file `pkg/mod.py` and the package
file `pkg/mod/__init__.py`. -/
def fsBoth : FS :=
  ⟨["pkg/__tests/mod.py", "pkg/mod.py", "pkg/mod/__init__.py"],
   ["pkg", "pkg/__tests", "pkg/mod"]⟩

/-- A filesystem on which exactly one candidate (the module file) exists. -/
def fsModuleOnly : FS :=
  ⟨["pkg/__tests/mod.py", "pkg/mod.py"], ["pkg", "pkg/__tests"]⟩

/-- A suite over trivial state whose hooks never raise; `before` takes 1
tick and `after` takes 5 ticks. -/
def suiteTicks : Suite Unit where
  qualname := "TicksSuite"
  module_path := "pkg/mod.py"
  members := []
  construct := ()
  initializeHook := fun s => (s, 0, none)
  before := fun s => (s, 1, none)
  after := fun s => (s, 5, none)
  terminate := fun s => (s, 0, none)

/-- A passing test whose body takes 2 ticks. -/
def testTwoTicks : Test Unit where
  module_path := "pkg/mod.py"
  suite_name := "TicksSuite"
  test_name := "test_two"
  run := fun s => (s, 2, none)
  runName := "test_two"

/-- A concrete `AssertionError` with a one-frame traceback. -/
def exnBoom : PyExn := ⟨"AssertionError", "boom", ⟨"test_fail", 27, 4⟩, []⟩

/-- A test whose body always raises `exnBoom`. -/
def testFail : Test Unit where
  module_path := "pkg/mod.py"
  suite_name := "TicksSuite"
  test_name := "test_fail"
  run := fun s => (s, 2, some exnBoom)
  runName := "test_fail"

/-- A passing test. -/
def testPassA : Test Unit where
  module_path := "pkg/mod.py"
  suite_name := "TicksSuite"
  test_name := "test_pass_a"
  run := fun s => (s, 1, none)
  runName := "test_pass_a"

/-- Another passing test. -/
def testPassB : Test Unit where
  module_path := "pkg/mod.py"
  suite_name := "TicksSuite"
  test_name := "test_pass_b"
  run := fun s => (s, 3, none)
  runName := "test_pass_b"

/-- A concrete `RuntimeError` raised by a hook. -/
def exnHook : PyExn := ⟨"RuntimeError", "hook broke", ⟨"before", 11, 8⟩, []⟩

/-- A suite whose `before` hook always raises. -/
def suiteBeforeRaises : Suite Unit where
  qualname := "BadBeforeSuite"
  module_path := "pkg/mod.py"
  members := []
  construct := ()
  initializeHook := fun s => (s, 0, none)
  before := fun s => (s, 1, some exnHook)
  after := fun s => (s, 1, none)
  terminate := fun s => (s, 0, none)

/-- A registrable suite owning exactly one declared test method. -/
def suiteOneTest : Suite Unit where
  qualname := "OneTestSuite"
  module_path := "pkg/mod.py"
  members := [("test_only", ⟨true, "test_only", fun s => (s, 1, none)⟩)]
  construct := ()
  initializeHook := fun s => (s, 0, none)
  before := fun s => (s, 0, none)
  after := fun s => (s, 0, none)
  terminate := fun s => (s, 0, none)

/-- A concrete `SyntaxError` representing a failed dynamic import. -/
def exnImport : PyExn := ⟨"SyntaxError", "invalid syntax", ⟨"<module>", 1, 0⟩, []⟩

/-- Discovery candidates: one file whose import raises, one file that
registers `suiteOneTest`. -/
def candsTwo : List (String × Except PyExn (List (Suite Unit))) :=
  [("pkg/__tests/bad.py", .error exnImport),
   ("pkg/__tests/mod.py", .ok [suiteOneTest])]

end Aamm

namespace Aamm

/-! Sanity facts used while developing the embedding. -/

example : right_replace "pkg/__tests/mod.py" TEST_PATH_JOIN "" = "pkg/mod.py" := by
  decide

example : segment "pkg/__tests/mod.py" (-2) = some "__tests" := by decide

example :
    is_test_file ⟨["pkg/__tests/mod.py", "pkg/mod.py"], ["pkg", "pkg/__tests"]⟩
      "pkg/__tests/mod.py" = .ok true := by decide

/-! ### Shuffle facts -/

theorem length_swapAt (l : List α) (i j : Nat) : (swapAt l i j).length = l.length := by
  unfold swapAt
  cases h1 : l[i]? <;> cases h2 : l[j]? <;> simp

theorem cons_get_set_perm (a : α) :
    ∀ (xs : List α) (k : Nat) (hk : k < xs.length),
      List.Perm (xs.get ⟨k, hk⟩ :: xs.set k a) (a :: xs) := by
  intro xs
  induction xs with
  | nil => intro k hk; simp at hk
  | cons y ys ih =>
      intro k hk
      match k with
      | 0 => simpa using List.Perm.swap a y ys
      | m + 1 =>
          have hm : m < ys.length := by simpa using hk
          have h1 : List.Perm (ys.get ⟨m, hm⟩ :: y :: ys.set m a)
              (y :: ys.get ⟨m, hm⟩ :: ys.set m a) := List.Perm.swap y _ _
          have h2 : List.Perm (y :: ys.get ⟨m, hm⟩ :: ys.set m a) (y :: a :: ys) :=
            (ih m hm).cons y
          have h3 : List.Perm (y :: a :: ys) (a :: y :: ys) := List.Perm.swap a y ys
          simpa using (h1.trans h2).trans h3

theorem set_set_perm :
    ∀ (l : List α) (i j : Nat) (hi : i < l.length) (hj : j < l.length),
      List.Perm ((l.set i (l.get ⟨j, hj⟩)).set j (l.get ⟨i, hi⟩)) l := by
  intro l
  induction l with
  | nil => intro i j hi; simp at hi
  | cons x xs ih =>
      intro i j hi hj
      match i, j with
      | 0, 0 => simp
      | 0, k + 1 =>
          have hk : k < xs.length := by simpa using hj
          simpa using cons_get_set_perm x xs k hk
      | m + 1, 0 =>
          have hm : m < xs.length := by simpa using hi
          simpa using cons_get_set_perm x xs m hm
      | m + 1, k + 1 =>
          have hm : m < xs.length := by simpa using hi
          have hk : k < xs.length := by simpa using hj
          simpa using (ih m k hm hk).cons x

theorem swapAt_perm (l : List α) (i j : Nat) : List.Perm (swapAt l i j) l := by
  unfold swapAt
  cases h1 : l[i]? with
  | none => exact List.Perm.refl l
  | some a =>
      cases h2 : l[j]? with
      | none => exact List.Perm.refl l
      | some b =>
          obtain ⟨hi, hvi⟩ := List.getElem?_eq_some.mp h1
          obtain ⟨hj, hvj⟩ := List.getElem?_eq_some.mp h2
          have ha : a = l.get ⟨i, hi⟩ := by simp [hvi]
          have hb : b = l.get ⟨j, hj⟩ := by simp [hvj]
          rw [ha, hb]
          exact set_set_perm l i j hi hj

theorem shuffleGo_perm :
    ∀ (n : Nat) (st : Nat) (l : List α), List.Perm (shuffleGo n st l) l := by
  intro n
  induction n with
  | zero => intro st l; exact List.Perm.refl l
  | succ k ih =>
      intro st l
      exact (ih _ _).trans (swapAt_perm l (k + 1) _)

theorem pyShuffle_perm (seed : Nat) (l : List α) : List.Perm (pyShuffle seed l) l :=
  shuffleGo_perm _ _ l

theorem length_pyShuffle (seed : Nat) (l : List α) :
    (pyShuffle seed l).length = l.length :=
  (pyShuffle_perm seed l).length_eq

theorem mem_of_mem_pyShuffle {seed : Nat} {l : List α} {x : α}
    (h : x ∈ pyShuffle seed l) : x ∈ l :=
  (pyShuffle_perm seed l).mem_iff.mp h

end Aamm

namespace Aamm

/-! ### Claim C6 — determinism of the shuffled order under a fixed seed -/

/-- Claim C6: two invocations of `run` on copies of the same test list, both
with `seed=0`, produce the identical execution order (and identical results
altogether), whatever the ambient RNG entropy of each invocation was. -/
theorem run_seed0_deterministic {σ : Type} (S : Suite σ) (tests : List (Test σ))
    (entropy1 entropy2 c0 : Nat) :
    (runSuite S tests entropy1 (some 0) c0).tests.map (fun t => t.test_name) =
        (runSuite S tests entropy2 (some 0) c0).tests.map (fun t => t.test_name) ∧
      runSuite S tests entropy1 (some 0) c0 = runSuite S tests entropy2 (some 0) c0 :=
  ⟨rfl, rfl⟩

/-! ### Claim C1 — `is_test_file` and the two candidate source paths -/

/-- Claim C1 counterexample: on a filesystem where BOTH candidate source
paths exist (`pkg/mod.py` and `pkg/mod/__init__.py`), `is_test_file` returns
`True` for `pkg/__tests/mod.py`, whereas the claim requires `False` when both
exist: the source tests `fs.exists(module_path) or fs.exists(package_path)`,
not exactly-one. -/
theorem is_test_file_both_candidates_true :
    fsBoth.is_file "pkg/__tests/mod.py" = true ∧
    fsBoth.pexists "pkg/mod.py" = true ∧
    fsBoth.pexists "pkg/mod/__init__.py" = true ∧
    is_test_file fsBoth "pkg/__tests/mod.py" = .ok true := by
  refine ⟨rfl, rfl, rfl, ?_⟩
  decide

/-- Claim C1 amended: for a path that is an existing file, has the `py`
extension and whose immediate parent directory is `__tests`, `is_test_file`
returns true exactly when AT LEAST ONE of the two candidate sibling source
paths (the stripped module file, or the package `__init__` file) exists —
in particular it returns true, not false, when both exist. -/
theorem is_test_file_amended (fs : FS) (path : String)
    (h1 : fs.is_file path = true)
    (h2 : has_extension fs path "py" = true)
    (h3 : segment path (-2) = some TEST_DIRECTORY_NAME) :
    is_test_file fs path =
      .ok (fs.pexists (right_replace path TEST_PATH_JOIN "") ||
           fs.pexists (remove_extension fs (right_replace path TEST_PATH_JOIN "") ++
             SEP ++ "__init__.py")) := by
  unfold is_test_file
  rw [h3]
  simp [h1, h2]

/-- Witness for `is_test_file_amended` at `pkg/__tests/mod.py` on a
filesystem where only the module candidate exists. -/
theorem is_test_file_amended_witness :
    (fsModuleOnly.is_file "pkg/__tests/mod.py" = true ∧
     has_extension fsModuleOnly "pkg/__tests/mod.py" "py" = true ∧
     segment "pkg/__tests/mod.py" (-2) = some TEST_DIRECTORY_NAME) ∧
    is_test_file fsModuleOnly "pkg/__tests/mod.py" =
      .ok (fsModuleOnly.pexists
             (right_replace "pkg/__tests/mod.py" TEST_PATH_JOIN "") ||
           fsModuleOnly.pexists
             (remove_extension fsModuleOnly
                (right_replace "pkg/__tests/mod.py" TEST_PATH_JOIN "") ++
              SEP ++ "__init__.py")) :=
  ⟨⟨by decide, by decide, by decide⟩,
   is_test_file_amended fsModuleOnly "pkg/__tests/mod.py" (by decide) (by decide)
     (by decide)⟩

/-! ### Claim C8 — invalid suite location raises at definition time -/

/-- Claim C8: defining a concrete suite (any class not literally named
`TestSuite`) in a file that is not a valid test file raises immediately at
definition time — the `RuntimeError` that realizes the spec's
`DefinitionError` — and the suite is not added to the registry. -/
theorem suite_definition_invalid_location_raises (fs : FS) (cls : ClassDecl)
    (definingFile : String) (registry : List ClassDecl)
    (hname : cls.name ≠ "TestSuite")
    (hinvalid : is_test_file fs definingFile = .ok false) :
    ∃ e : PyExn,
      testSuiteMetaInit fs cls definingFile registry = (.error e, registry) ∧
      e.error_name = "RuntimeError" ∧
      e.error_message =
        cls.qualname ++ " is not instantiated inside a valid test file" := by
  refine ⟨⟨"RuntimeError",
           cls.qualname ++ " is not instantiated inside a valid test file",
           ⟨"__init__", 76, 0⟩, []⟩, ?_, rfl, rfl⟩
  unfold testSuiteMetaInit
  have hb : (cls.name == "TestSuite") = false := by
    simpa using hname
  rw [hb]
  simp [hinvalid]

/-- Witness for `suite_definition_invalid_location_raises`: a suite named
`MySuite` defined in `pkg/mod.py` (not under a `__tests` directory) on an
empty filesystem. -/
theorem suite_definition_invalid_location_raises_witness :
    ((⟨"MySuite", "MySuite", none, none⟩ : ClassDecl).name ≠ "TestSuite" ∧
     is_test_file ⟨[], []⟩ "pkg/mod.py" = .ok false) ∧
    ∃ e : PyExn,
      testSuiteMetaInit ⟨[], []⟩ ⟨"MySuite", "MySuite", none, none⟩ "pkg/mod.py" [] =
          (.error e, []) ∧
        e.error_name = "RuntimeError" ∧
        e.error_message =
          ("MySuite" : String) ++ " is not instantiated inside a valid test file" :=
  ⟨⟨by decide, by decide⟩,
   suite_definition_invalid_location_raises ⟨[], []⟩ ⟨"MySuite", "MySuite", none, none⟩
     "pkg/mod.py" [] (by decide) (by decide)⟩

/-! ### Claim C9 — a class literally named `TestSuite` is skipped -/

/-- Claim C9: when the class passing through `TestSuiteMeta.__init__` is
named exactly `"TestSuite"`, the metaclass returns early: whatever the
filesystem and defining file, no validation happens, nothing is raised, the
class is returned untouched, and the registry is unchanged. -/
theorem suite_named_testsuite_skipped (fs : FS) (cls : ClassDecl)
    (definingFile : String) (registry : List ClassDecl)
    (hname : cls.name = "TestSuite") :
    testSuiteMetaInit fs cls definingFile registry = (.ok cls, registry) := by
  unfold testSuiteMetaInit
  rw [hname]
  simp

/-- Witness for `suite_named_testsuite_skipped`: a user class named
`TestSuite` declared in a file that is not a valid test file is silently
ignored. -/
theorem suite_named_testsuite_skipped_witness :
    ((⟨"TestSuite", "Outer.TestSuite", none, none⟩ : ClassDecl).name = "TestSuite") ∧
    testSuiteMetaInit ⟨[], []⟩ ⟨"TestSuite", "Outer.TestSuite", none, none⟩
        "not_a_test_dir/file.py" [] =
      (.ok ⟨"TestSuite", "Outer.TestSuite", none, none⟩, []) :=
  ⟨by decide,
   suite_named_testsuite_skipped ⟨[], []⟩ ⟨"TestSuite", "Outer.TestSuite", none, none⟩
     "not_a_test_dir/file.py" [] (by decide)⟩

end Aamm

namespace Aamm

/-! ### Claim C3 — where the duration is recorded -/

/-- Claim C3 counterexample: running a single 2-tick test under hooks whose
`after` costs 5 ticks records a duration of 7 ticks, not 2: the source stores
`perf_counter() - t` on line 166, after the `finally: self.after()` block,
so the cost of `after()` is included in (not excluded from) the recorded
duration. -/
theorem duration_includes_after_cost :
    (runSuite suiteTicks [testTwoTicks] 0 (some 0) 0).tests.map
        (fun t => t.test_duration) = [some 7] ∧
    ¬ (runSuite suiteTicks [testTwoTicks] 0 (some 0) 0).tests.map
        (fun t => t.test_duration) = [some 2] := by
  constructor
  · decide
  · decide

/-- Claim C3 amended: for every executed test whose surrounding `before` and
`after` calls return normally, the recorded duration equals the body's
elapsed time PLUS the elapsed time of `instance.after()`: the timer is read
only after `after()` completes (still before the next test's `before`). -/
theorem duration_recorded_after_after {σ : Type} (S : Suite σ) (t : Test σ)
    (s : σ) (c : Nat)
    (hb : (S.before s).2.2 = none)
    (ha : (S.after (t.run (S.before s).1).1).2.2 = none) :
    (runOneTest S t s c).test.test_duration =
      some (((t.run (S.before s).1).2.1 : Int) +
            ((S.after (t.run (S.before s).1).1).2.1 : Int)) := by
  rcases hB : S.before s with ⟨s1, d1, e1⟩
  rcases hR : t.run s1 with ⟨s2, d2, e2⟩
  rcases hA : S.after s2 with ⟨s3, d3, e3⟩
  rw [hB] at hb
  rw [hB, hR, hA] at ha
  simp at hb ha
  subst hb
  subst ha
  cases e2 with
  | none =>
      simp [runOneTest, hB, hR, hA, recordFailure]
      ring
  | some ex =>
      simp [runOneTest, hB, hR, hA, recordFailure]
      ring

/-- Witness for `duration_recorded_after_after` on the concrete 2-tick test
with the 5-tick `after` hook: the recorded duration is `2 + 5`. -/
theorem duration_recorded_after_after_witness :
    ((suiteTicks.before ()).2.2 = none ∧
     (suiteTicks.after (testTwoTicks.run (suiteTicks.before ()).1).1).2.2 = none) ∧
    (runOneTest suiteTicks testTwoTicks () 0).test.test_duration =
      some (((testTwoTicks.run (suiteTicks.before ()).1).2.1 : Int) +
            ((suiteTicks.after (testTwoTicks.run (suiteTicks.before ()).1).1).2.1 : Int)) :=
  ⟨⟨rfl, rfl⟩, duration_recorded_after_after suiteTicks testTwoTicks () 0 rfl rfl⟩

end Aamm

namespace Aamm

/-! ### The runner under non-raising hooks -/

/-- One loop iteration when `before` (at the current state) and `after`
(everywhere) return normally: no abort, the `before`/body/`after` event
triple, a set non-negative duration, and — for a freshly collected test —
failure fields present exactly when the body raised. -/
theorem runOneTest_ok {σ : Type} (S : Suite σ) (t : Test σ) (s : σ) (c : Nat)
    (hb : (S.before s).2.2 = none) (ha : ∀ s', (S.after s').2.2 = none) :
    (runOneTest S t s c).abort = none ∧
    (runOneTest S t s c).events =
      [.beforeCall, .bodyCall t.test_name ((t.run (S.before s).1).2.2).isSome,
       .afterCall] ∧
    (∃ d : Int, (runOneTest S t s c).test.test_duration = some d ∧ 0 ≤ d) ∧
    (Fresh t →
      (((runOneTest S t s c).test.error_name = none) ↔
        ((t.run (S.before s).1).2.2).isSome = false) ∧
      (((runOneTest S t s c).test.error_message = none) ↔
        ((t.run (S.before s).1).2.2).isSome = false) ∧
      (((runOneTest S t s c).test.where_ = none) ↔
        ((t.run (S.before s).1).2.2).isSome = false)) := by
  rcases hB : S.before s with ⟨s1, d1, e1⟩
  rcases hR : t.run s1 with ⟨s2, d2, e2⟩
  rcases hA : S.after s2 with ⟨s3, d3, e3⟩
  rw [hB] at hb
  simp at hb
  subst hb
  have ha2 := ha s2
  rw [hA] at ha2
  simp at ha2
  subst ha2
  cases e2 with
  | none =>
      refine ⟨by simp [runOneTest, hB, hR, hA], by simp [runOneTest, hB, hR, hA], ?_, ?_⟩
      · refine ⟨(d2 : Int) + (d3 : Int), ?_, by positivity⟩
        simp [runOneTest, hB, hR, hA]
        ring
      · intro hf
        simp [runOneTest, hB, hR, hA]
        exact ⟨hf.2.2.1, hf.2.2.2, hf.2.1⟩
  | some ex =>
      refine ⟨by simp [runOneTest, hB, hR, hA], by simp [runOneTest, hB, hR, hA], ?_, ?_⟩
      · refine ⟨(d2 : Int) + (d3 : Int), ?_, by positivity⟩
        simp [runOneTest, hB, hR, hA, recordFailure]
        ring
      · intro hf
        simp [runOneTest, hB, hR, hA, recordFailure]

/-- The whole loop when the per-test hooks never raise: it never escapes,
returns as many tests as it was given, its trace is the concatenation of the
per-test triples, and every processed fresh test ends with a non-negative
duration and with failure fields present exactly when its body raised. -/
theorem runTests_ok {σ : Type} (S : Suite σ) (hb : ∀ s, (S.before s).2.2 = none)
    (ha : ∀ s, (S.after s).2.2 = none) :
    ∀ (ts : List (Test σ)) (s : σ) (c : Nat),
      (runTests S ts s c).escaped = none ∧
      (runTests S ts s c).tests.length = ts.length ∧
      ∃ flags : List Bool,
        bodyFlags (runTests S ts s c).events = flags ∧
        flags.length = ts.length ∧
        (runTests S ts s c).events =
          tracePattern ((ts.map fun t => t.test_name).zip flags) ∧
        ((∀ t ∈ ts, Fresh t) →
          ∀ p ∈ (runTests S ts s c).tests.zip flags,
            (∃ d : Int, p.1.test_duration = some d ∧ 0 ≤ d) ∧
            ((p.1.error_name = none) ↔ p.2 = false) ∧
            ((p.1.error_message = none) ↔ p.2 = false) ∧
            ((p.1.where_ = none) ↔ p.2 = false)) := by
  intro ts
  induction ts with
  | nil =>
      intro s c
      refine ⟨rfl, rfl, [], rfl, rfl, rfl, ?_⟩
      intro _ p hp
      simp [runTests] at hp
  | cons t rest ih =>
      intro s c
      obtain ⟨hab, hev, hdur, hfields⟩ := runOneTest_ok S t s c (hb s) ha
      have hrun : runTests S (t :: rest) s c =
          ⟨(runOneTest S t s c).events ++
             (runTests S rest (runOneTest S t s c).state (runOneTest S t s c).clock).events,
           (runOneTest S t s c).test ::
             (runTests S rest (runOneTest S t s c).state (runOneTest S t s c).clock).tests,
           (runTests S rest (runOneTest S t s c).state (runOneTest S t s c).clock).state,
           (runTests S rest (runOneTest S t s c).state (runOneTest S t s c).clock).clock,
           (runTests S rest (runOneTest S t s c).state (runOneTest S t s c).clock).escaped⟩ := by
        rw [runTests]
        rw [hab]
      obtain ⟨resc, rlen, flags, hbf, hflen, hevs, hres⟩ :=
        ih (runOneTest S t s c).state (runOneTest S t s c).clock
      refine ⟨?_, ?_, ((t.run (S.before s).1).2.2).isSome :: flags, ?_, ?_, ?_, ?_⟩
      · rw [hrun]; exact resc
      · rw [hrun]; simpa using rlen
      · rw [hrun]
        simp only [bodyFlags, List.filterMap_append]
        rw [hev]
        simp [bodyFlags] at hbf ⊢
        exact hbf
      · simpa using hflen
      · rw [hrun, hev, hevs]
        simp [tracePattern, List.zip]
      · intro hfresh p hp
        rw [hrun] at hp
        simp only [List.zip_cons_cons, List.mem_cons] at hp
        rcases hp with hp | hp
        · subst hp
          refine ⟨hdur, ?_⟩
          exact hfields (hfresh t (by simp))
        · exact hres (fun x hx => hfresh x (by simp [hx])) p hp

end Aamm

namespace Aamm

/-- Unfolding `runSuite` when `initialize` and `terminate` return normally:
the run is `initialize`, the loop over the shuffled list, `terminate`; the
loop's tests and escape status pass through. -/
theorem runSuite_decompose {σ : Type} (S : Suite σ) (tests : List (Test σ))
    (entropy : Nat) (seed : Option Nat) (c0 : Nat)
    (hi : ∀ s, (S.initializeHook s).2.2 = none)
    (ht : ∀ s, (S.terminate s).2.2 = none) :
    (runSuite S tests entropy seed c0).events =
      [.initializeCall] ++
        (runTests S (pyShuffle (seed.getD entropy) tests) (S.initializeHook S.construct).1
          (c0 + (S.initializeHook S.construct).2.1)).events ++ [.terminateCall] ∧
    (runSuite S tests entropy seed c0).tests =
      (runTests S (pyShuffle (seed.getD entropy) tests) (S.initializeHook S.construct).1
        (c0 + (S.initializeHook S.construct).2.1)).tests ∧
    (runSuite S tests entropy seed c0).escaped =
      (runTests S (pyShuffle (seed.getD entropy) tests) (S.initializeHook S.construct).1
        (c0 + (S.initializeHook S.construct).2.1)).escaped := by
  rcases hI : S.initializeHook S.construct with ⟨s1, d1, e1⟩
  have hi1 := hi S.construct
  rw [hI] at hi1
  simp at hi1
  subst hi1
  rcases hT : S.terminate (runTests S (pyShuffle (seed.getD entropy) tests) s1 (c0 + d1)).state
    with ⟨s3, d3, e3⟩
  have ht1 := ht (runTests S (pyShuffle (seed.getD entropy) tests) s1 (c0 + d1)).state
  rw [hT] at ht1
  simp at ht1
  subst ht1
  refine ⟨?_, ?_, ?_⟩ <;> simp [runSuite, hI, hT]

end Aamm

namespace Aamm

/-! ### Claim C4 — result fields after a completed run -/

/-- Claim C4: after `run` completes on a list of freshly collected tests
(hooks returning normally, so the run finishes and nothing escapes), every
test carries a finite non-negative duration, and its failure record
(`error_name`/`error_message`/`where`) is absent exactly when its body
completed without raising — pairing each output test with its body's
outcome flag from the trace. -/
theorem run_result_fields (σ : Type) (S : Suite σ) (tests : List (Test σ))
    (entropy : Nat) (seed : Option Nat) (c0 : Nat)
    (hS : HooksOk S) (hfresh : ∀ t ∈ tests, Fresh t) :
    (runSuite S tests entropy seed c0).escaped = none ∧
    (runSuite S tests entropy seed c0).tests.length = tests.length ∧
    (bodyFlags (runSuite S tests entropy seed c0).events).length = tests.length ∧
    ∀ p ∈ (runSuite S tests entropy seed c0).tests.zip
        (bodyFlags (runSuite S tests entropy seed c0).events),
      (∃ d : Int, p.1.test_duration = some d ∧ 0 ≤ d) ∧
      ((p.1.error_name = none) ↔ p.2 = false) ∧
      ((p.1.error_message = none) ↔ p.2 = false) ∧
      ((p.1.where_ = none) ↔ p.2 = false) := by
  obtain ⟨hb, ha, hi, ht⟩ := hS
  obtain ⟨hevent, htests, hescape⟩ := runSuite_decompose S tests entropy seed c0 hi ht
  obtain ⟨resc, rlen, flags, hbf, hflen, hevs, hres⟩ :=
    runTests_ok S hb ha (pyShuffle (seed.getD entropy) tests)
      (S.initializeHook S.construct).1 (c0 + (S.initializeHook S.construct).2.1)
  have hshuf : (pyShuffle (seed.getD entropy) tests).length = tests.length :=
    length_pyShuffle _ _
  have hflags : bodyFlags (runSuite S tests entropy seed c0).events = flags := by
    rw [hevent]
    simp only [bodyFlags, List.filterMap_append, List.filterMap_cons,
      List.filterMap_nil] at hbf ⊢
    simpa using hbf
  refine ⟨by rw [hescape]; exact resc, by rw [htests, rlen]; exact hshuf,
    by rw [hflags, hflen]; exact hshuf, ?_⟩
  intro p hp
  rw [htests, hflags] at hp
  exact hres (fun t htm => hfresh t (mem_of_mem_pyShuffle htm)) p hp

end Aamm

namespace Aamm

/-- Witness for `run_result_fields`: a raising and a passing test run under
never-raising hooks. -/
theorem run_result_fields_witness :
    (HooksOk suiteTicks ∧ ∀ t ∈ [testFail, testPassA], Fresh t) ∧
    ((runSuite suiteTicks [testFail, testPassA] 0 (some 0) 0).escaped = none ∧
     (runSuite suiteTicks [testFail, testPassA] 0 (some 0) 0).tests.length =
       ([testFail, testPassA] : List (Test Unit)).length ∧
     (bodyFlags (runSuite suiteTicks [testFail, testPassA] 0 (some 0) 0).events).length =
       ([testFail, testPassA] : List (Test Unit)).length ∧
     ∀ p ∈ (runSuite suiteTicks [testFail, testPassA] 0 (some 0) 0).tests.zip
         (bodyFlags (runSuite suiteTicks [testFail, testPassA] 0 (some 0) 0).events),
       (∃ d : Int, p.1.test_duration = some d ∧ 0 ≤ d) ∧
       ((p.1.error_name = none) ↔ p.2 = false) ∧
       ((p.1.error_message = none) ↔ p.2 = false) ∧
       ((p.1.where_ = none) ↔ p.2 = false)) := by
  have hok : HooksOk suiteTicks :=
    ⟨fun s => rfl, fun s => rfl, fun s => rfl, fun s => rfl⟩
  have hfr : ∀ t ∈ [testFail, testPassA], Fresh t := by
    intro t ht
    simp only [List.mem_cons, List.not_mem_nil, or_false] at ht
    rcases ht with rfl | rfl <;> exact ⟨rfl, rfl, rfl, rfl⟩
  exact ⟨⟨hok, hfr⟩, run_result_fields Unit suiteTicks [testFail, testPassA] 0 (some 0) 0 hok hfr⟩

/-! ### Claim C5 — hook call counts around a failing test -/

/-- Counting events in the loop trace: one `before` and one `after` per
iteration, and no `initialize`/`terminate` events. -/
theorem tracePattern_count (l : List (String × Bool)) :
    (tracePattern l).count Event.beforeCall = l.length ∧
    (tracePattern l).count Event.afterCall = l.length ∧
    (tracePattern l).count Event.initializeCall = 0 ∧
    (tracePattern l).count Event.terminateCall = 0 := by
  induction l with
  | nil => simp [tracePattern]
  | cons nb rest ih =>
      simp [tracePattern, List.count_cons, ih.1, ih.2.1, ih.2.2.1, ih.2.2.2]

/-- Event counts of a whole run trace of the shape
`initialize`, loop pattern, `terminate`. -/
theorem counts_of_shape (L : List (String × Bool)) :
    ([Event.initializeCall] ++ tracePattern L ++ [Event.terminateCall]).count
        Event.initializeCall = 1 ∧
    ([Event.initializeCall] ++ tracePattern L ++ [Event.terminateCall]).count
        Event.beforeCall = L.length ∧
    ([Event.initializeCall] ++ tracePattern L ++ [Event.terminateCall]).count
        Event.afterCall = L.length ∧
    ([Event.initializeCall] ++ tracePattern L ++ [Event.terminateCall]).count
        Event.terminateCall = 1 := by
  obtain ⟨c1, c2, c3, c4⟩ := tracePattern_count L
  exact ⟨by simp [List.count_append, List.count_cons, c3],
         by simp [List.count_append, List.count_cons, c1],
         by simp [List.count_append, List.count_cons, c2],
         by simp [List.count_append, List.count_cons, c4]⟩

/-- Claim C5: running a suite of three tests, one of which unconditionally
raises, under never-raising hooks invokes `initialize` once, then `before`
and `after` exactly three times each — paired around each body call, the
failing one included — then `terminate` once, and nothing escapes. -/
theorem run_hook_call_counts {σ : Type} (S : Suite σ) (t1 t2 t3 : Test σ)
    (entropy : Nat) (seed : Option Nat) (c0 : Nat)
    (hS : HooksOk S)
    (hraise : ∀ s, ((t1.run s).2.2).isSome = true) :
    ∃ l : List (String × Bool), l.length = 3 ∧
      (runSuite S [t1, t2, t3] entropy seed c0).events =
        [.initializeCall] ++ tracePattern l ++ [.terminateCall] ∧
      (runSuite S [t1, t2, t3] entropy seed c0).events.count .initializeCall = 1 ∧
      (runSuite S [t1, t2, t3] entropy seed c0).events.count .beforeCall = 3 ∧
      (runSuite S [t1, t2, t3] entropy seed c0).events.count .afterCall = 3 ∧
      (runSuite S [t1, t2, t3] entropy seed c0).events.count .terminateCall = 1 ∧
      (runSuite S [t1, t2, t3] entropy seed c0).escaped = none := by
  obtain ⟨hb, ha, hi, ht⟩ := hS
  obtain ⟨hevent, htests, hescape⟩ :=
    runSuite_decompose S [t1, t2, t3] entropy seed c0 hi ht
  obtain ⟨resc, rlen, flags, hbf, hflen, hevs, hres⟩ :=
    runTests_ok S hb ha (pyShuffle (seed.getD entropy) [t1, t2, t3])
      (S.initializeHook S.construct).1 (c0 + (S.initializeHook S.construct).2.1)
  have hshuf : (pyShuffle (seed.getD entropy) [t1, t2, t3]).length = 3 :=
    length_pyShuffle _ _
  have hzlen : (((pyShuffle (seed.getD entropy) [t1, t2, t3]).map
      (fun t => t.test_name)).zip flags).length = 3 := by
    rw [List.length_zip, List.length_map, hshuf, hflen, hshuf]
    simp
  obtain ⟨k1, k2, k3, k4⟩ := counts_of_shape
    (((pyShuffle (seed.getD entropy) [t1, t2, t3]).map (fun t => t.test_name)).zip flags)
  refine ⟨_, hzlen, ?_, ?_, ?_, ?_, ?_, ?_⟩
  · rw [hevent, hevs]
  · rw [hevent, hevs]
    exact k1
  · rw [hevent, hevs]
    rw [k2]
    exact hzlen
  · rw [hevent, hevs]
    rw [k3]
    exact hzlen
  · rw [hevent, hevs]
    exact k4
  · rw [hescape]
    exact resc

/-- Witness for `run_hook_call_counts`: `testFail` raises unconditionally
next to two passing tests under the never-raising `suiteTicks` hooks. -/
theorem run_hook_call_counts_witness :
    (HooksOk suiteTicks ∧ ∀ s, ((testFail.run s).2.2).isSome = true) ∧
    (∃ l : List (String × Bool), l.length = 3 ∧
      (runSuite suiteTicks [testFail, testPassA, testPassB] 0 (some 0) 0).events =
        [.initializeCall] ++ tracePattern l ++ [.terminateCall] ∧
      (runSuite suiteTicks [testFail, testPassA, testPassB] 0 (some 0) 0).events.count
        .initializeCall = 1 ∧
      (runSuite suiteTicks [testFail, testPassA, testPassB] 0 (some 0) 0).events.count
        .beforeCall = 3 ∧
      (runSuite suiteTicks [testFail, testPassA, testPassB] 0 (some 0) 0).events.count
        .afterCall = 3 ∧
      (runSuite suiteTicks [testFail, testPassA, testPassB] 0 (some 0) 0).events.count
        .terminateCall = 1 ∧
      (runSuite suiteTicks [testFail, testPassA, testPassB] 0 (some 0) 0).escaped = none) := by
  have hok : HooksOk suiteTicks :=
    ⟨fun s => rfl, fun s => rfl, fun s => rfl, fun s => rfl⟩
  have hr : ∀ s, ((testFail.run s).2.2).isSome = true := fun s => rfl
  exact ⟨⟨hok, hr⟩,
    run_hook_call_counts suiteTicks testFail testPassA testPassB 0 (some 0) 0 hok hr⟩

end Aamm
namespace Aamm

/-- A run trace of the shape `initialize`, loop, `terminate` ends with the
`terminate` call. -/
theorem trace_ends_terminate (L : List Event) :
    ([Event.initializeCall] ++ L ++ [Event.terminateCall]).getLast? =
      some Event.terminateCall := by
  rw [List.getLast?_append_cons]
  rfl

/-! ### Claim C10 — `before`/`after` failures are not contained per test -/

/-- Claim C10: only exceptions from the test body are contained per test.
When `instance.before()` raises (first disjunct) or `instance.after()` raises
(second disjunct), the exception is not caught by the per-test handler: the
run's escaped exception is present, at most one body ever ran, the remaining
tests keep their unset result fields (no duration is ever recorded), and
`cls.terminate()` is still invoked exactly once, as the last event, via the
outer `finally`. -/
theorem hook_failure_aborts_run {σ : Type} (S : Suite σ) (tests : List (Test σ))
    (entropy : Nat) (seed : Option Nat) (c0 : Nat)
    (hne : tests ≠ [])
    (hfresh : ∀ t ∈ tests, Fresh t)
    (hinit : ∀ s, (S.initializeHook s).2.2 = none)
    (hterm : ∀ s, (S.terminate s).2.2 = none)
    (hcase : (∀ s, ((S.before s).2.2).isSome = true) ∨
             ((∀ s, (S.before s).2.2 = none) ∧ ∀ s, ((S.after s).2.2).isSome = true)) :
    ((runSuite S tests entropy seed c0).escaped).isSome = true ∧
    (runSuite S tests entropy seed c0).events.count .terminateCall = 1 ∧
    (runSuite S tests entropy seed c0).events.getLast? = some .terminateCall ∧
    (bodyFlags (runSuite S tests entropy seed c0).events).length ≤ 1 ∧
    (runSuite S tests entropy seed c0).tests.length = tests.length ∧
    (∀ t' ∈ (runSuite S tests entropy seed c0).tests, t'.test_duration = none) ∧
    (∀ t' ∈ (runSuite S tests entropy seed c0).tests.drop 1, Fresh t') := by
  obtain ⟨hevent, htests, hescape⟩ :=
    runSuite_decompose S tests entropy seed c0 hinit hterm
  rcases hcons : pyShuffle (seed.getD entropy) tests with _ | ⟨t, rest⟩
  · exfalso
    have h0 : tests.length = 0 := by
      rw [← length_pyShuffle (seed.getD entropy) tests, hcons]
      rfl
    exact hne (List.eq_nil_of_length_eq_zero h0)
  · have hlen : (t :: rest).length = tests.length := by
      rw [← hcons]
      exact length_pyShuffle _ _
    have hmem' : ∀ x ∈ t :: rest, x ∈ tests := fun x hx =>
      mem_of_mem_pyShuffle (l := tests) (hcons.symm ▸ hx)
    have htfresh : Fresh t := hfresh t (hmem' t (by simp))
    have hrfresh : ∀ x ∈ rest, Fresh x :=
      fun x hx => hfresh x (hmem' x (by simp [hx]))
    rw [hcons] at hevent htests hescape
    rcases hcase with hbr | ⟨hbok, har⟩
    · -- before() raises: not caught by the per-test handler
      rcases hB : S.before (S.initializeHook S.construct).1 with ⟨sb, db, eb⟩
      have hebs := hbr (S.initializeHook S.construct).1
      rw [hB] at hebs
      simp at hebs
      obtain ⟨ex, hex⟩ := Option.isSome_iff_exists.mp hebs
      subst hex
      have hstep : runOneTest S t (S.initializeHook S.construct).1
          (c0 + (S.initializeHook S.construct).2.1) =
          ⟨[.beforeCall], t, sb, c0 + (S.initializeHook S.construct).2.1 + db,
           some ex⟩ := by
        simp [runOneTest, hB]
      have hev2 : (runTests S (t :: rest) (S.initializeHook S.construct).1
          (c0 + (S.initializeHook S.construct).2.1)).events = [.beforeCall] := by
        rw [runTests, hstep]
      have hts2 : (runTests S (t :: rest) (S.initializeHook S.construct).1
          (c0 + (S.initializeHook S.construct).2.1)).tests = t :: rest := by
        rw [runTests, hstep]
      have hes2 : (runTests S (t :: rest) (S.initializeHook S.construct).1
          (c0 + (S.initializeHook S.construct).2.1)).escaped = some ex := by
        rw [runTests, hstep]
      rw [hev2] at hevent
      rw [hts2] at htests
      rw [hes2] at hescape
      refine ⟨by rw [hescape]; rfl, by rw [hevent]; decide,
        by rw [hevent]; exact trace_ends_terminate _, by rw [hevent]; decide,
        by rw [htests]; exact hlen, ?_, ?_⟩
      · intro t' ht'
        rw [htests] at ht'
        rcases List.mem_cons.mp ht' with rfl | hx
        · exact htfresh.1
        · exact (hrfresh t' hx).1
      · intro t' ht'
        rw [htests] at ht'
        simp only [List.drop_one, List.tail_cons] at ht'
        exact hrfresh t' ht'
    · -- after() raises following the body call
      rcases hB : S.before (S.initializeHook S.construct).1 with ⟨sb, db, eb⟩
      have hebn := hbok (S.initializeHook S.construct).1
      rw [hB] at hebn
      simp at hebn
      subst hebn
      rcases hR : t.run sb with ⟨sr, dr, er⟩
      rcases hA : S.after sr with ⟨sa, da, ea⟩
      have heas := har sr
      rw [hA] at heas
      simp at heas
      obtain ⟨ex, hex⟩ := Option.isSome_iff_exists.mp heas
      subst hex
      cases er with
      | none =>
          have hstep : runOneTest S t (S.initializeHook S.construct).1
              (c0 + (S.initializeHook S.construct).2.1) =
              ⟨[.beforeCall, .bodyCall t.test_name false, .afterCall], t, sa,
               c0 + (S.initializeHook S.construct).2.1 + db + dr + da, some ex⟩ := by
            simp [runOneTest, hB, hR, hA]
          have hev2 : (runTests S (t :: rest) (S.initializeHook S.construct).1
              (c0 + (S.initializeHook S.construct).2.1)).events =
              [.beforeCall, .bodyCall t.test_name false, .afterCall] := by
            rw [runTests, hstep]
          have hts2 : (runTests S (t :: rest) (S.initializeHook S.construct).1
              (c0 + (S.initializeHook S.construct).2.1)).tests = t :: rest := by
            rw [runTests, hstep]
          have hes2 : (runTests S (t :: rest) (S.initializeHook S.construct).1
              (c0 + (S.initializeHook S.construct).2.1)).escaped = some ex := by
            rw [runTests, hstep]
          rw [hev2] at hevent
          rw [hts2] at htests
          rw [hes2] at hescape
          have hcount : ((runSuite S tests entropy seed c0).events).count
              Event.terminateCall = 1 := by
            rw [hevent]
            exact (counts_of_shape [(t.test_name, false)]).2.2.2
          refine ⟨by rw [hescape]; rfl, hcount,
            by rw [hevent]; exact trace_ends_terminate _,
            by rw [hevent]; simp [bodyFlags], by rw [htests]; exact hlen, ?_, ?_⟩
          · intro t' ht'
            rw [htests] at ht'
            rcases List.mem_cons.mp ht' with rfl | hx
            · exact htfresh.1
            · exact (hrfresh t' hx).1
          · intro t' ht'
            rw [htests] at ht'
            simp only [List.drop_one, List.tail_cons] at ht'
            exact hrfresh t' ht'
      | some exb =>
          have hstep : runOneTest S t (S.initializeHook S.construct).1
              (c0 + (S.initializeHook S.construct).2.1) =
              ⟨[.beforeCall, .bodyCall t.test_name true, .afterCall],
               recordFailure t exb, sa,
               c0 + (S.initializeHook S.construct).2.1 + db + dr + da, some ex⟩ := by
            simp [runOneTest, hB, hR, hA]
          have hev2 : (runTests S (t :: rest) (S.initializeHook S.construct).1
              (c0 + (S.initializeHook S.construct).2.1)).events =
              [.beforeCall, .bodyCall t.test_name true, .afterCall] := by
            rw [runTests, hstep]
          have hts2 : (runTests S (t :: rest) (S.initializeHook S.construct).1
              (c0 + (S.initializeHook S.construct).2.1)).tests =
              recordFailure t exb :: rest := by
            rw [runTests, hstep]
          have hes2 : (runTests S (t :: rest) (S.initializeHook S.construct).1
              (c0 + (S.initializeHook S.construct).2.1)).escaped = some ex := by
            rw [runTests, hstep]
          rw [hev2] at hevent
          rw [hts2] at htests
          rw [hes2] at hescape
          have hcount : ((runSuite S tests entropy seed c0).events).count
              Event.terminateCall = 1 := by
            rw [hevent]
            exact (counts_of_shape [(t.test_name, true)]).2.2.2
          refine ⟨by rw [hescape]; rfl, hcount,
            by rw [hevent]; exact trace_ends_terminate _,
            by rw [hevent]; simp [bodyFlags],
            by rw [htests]; simpa using hlen, ?_, ?_⟩
          · intro t' ht'
            rw [htests] at ht'
            rcases List.mem_cons.mp ht' with rfl | hx
            · exact htfresh.1
            · exact (hrfresh t' hx).1
          · intro t' ht'
            rw [htests] at ht'
            simp only [List.drop_one, List.tail_cons] at ht'
            exact hrfresh t' ht'


/-- Witness for `hook_failure_aborts_run`: a single fresh test under a suite
whose `before` hook always raises. -/
theorem hook_failure_aborts_run_witness :
    (([testPassA] : List (Test Unit)) ≠ [] ∧
     (∀ t ∈ ([testPassA] : List (Test Unit)), Fresh t) ∧
     (∀ s, (suiteBeforeRaises.initializeHook s).2.2 = none) ∧
     (∀ s, (suiteBeforeRaises.terminate s).2.2 = none) ∧
     ((∀ s, ((suiteBeforeRaises.before s).2.2).isSome = true) ∨
      ((∀ s, (suiteBeforeRaises.before s).2.2 = none) ∧
       ∀ s, ((suiteBeforeRaises.after s).2.2).isSome = true))) ∧
    (((runSuite suiteBeforeRaises [testPassA] 0 (some 0) 0).escaped).isSome = true ∧
     (runSuite suiteBeforeRaises [testPassA] 0 (some 0) 0).events.count
       .terminateCall = 1 ∧
     (runSuite suiteBeforeRaises [testPassA] 0 (some 0) 0).events.getLast? =
       some .terminateCall ∧
     (bodyFlags (runSuite suiteBeforeRaises [testPassA] 0 (some 0) 0).events).length ≤ 1 ∧
     (runSuite suiteBeforeRaises [testPassA] 0 (some 0) 0).tests.length =
       ([testPassA] : List (Test Unit)).length ∧
     (∀ t' ∈ (runSuite suiteBeforeRaises [testPassA] 0 (some 0) 0).tests,
       t'.test_duration = none) ∧
     (∀ t' ∈ (runSuite suiteBeforeRaises [testPassA] 0 (some 0) 0).tests.drop 1,
       Fresh t')) := by
  have h1 : ([testPassA] : List (Test Unit)) ≠ [] := by simp
  have h2 : ∀ t ∈ ([testPassA] : List (Test Unit)), Fresh t := by
    intro t ht
    simp only [List.mem_cons, List.not_mem_nil, or_false] at ht
    subst ht
    exact ⟨rfl, rfl, rfl, rfl⟩
  have h3 : ∀ s, (suiteBeforeRaises.initializeHook s).2.2 = none := fun s => rfl
  have h4 : ∀ s, (suiteBeforeRaises.terminate s).2.2 = none := fun s => rfl
  have h5 : (∀ s, ((suiteBeforeRaises.before s).2.2).isSome = true) ∨
      ((∀ s, (suiteBeforeRaises.before s).2.2 = none) ∧
       ∀ s, ((suiteBeforeRaises.after s).2.2).isSome = true) :=
    Or.inl fun s => rfl
  exact ⟨⟨h1, h2, h3, h4, h5⟩,
    hook_failure_aborts_run suiteBeforeRaises [testPassA] 0 (some 0) 0 h1 h2 h3 h4 h5⟩

end Aamm
namespace Aamm

/-! ### Claim C7 — collection is purely structural -/

/-- Claim C7: `collect_tests` returns exactly one fresh `Test` record per
callable member of the suite's OWN namespace whose key starts with `test_`,
in declaration order; inherited members are never consulted; and collection
never runs a body — replacing every member's behaviour commutes with
collection, so the records depend on the bodies only by carrying them. -/
theorem collect_tests_structural (σ : Type) (S : Suite σ) :
    (collect_tests S).length =
      (S.members.filter fun m => m.2.callable && m.1.startsWith "test_").length ∧
    (collect_tests S).map (fun t => t.test_name) =
      (S.members.filter fun m => m.2.callable && m.1.startsWith "test_").map
        (fun m => m.1) ∧
    (∀ t ∈ collect_tests S, Fresh t) ∧
    (∀ inh, collect_tests { S with inherited := inh } = collect_tests S) ∧
    (∀ g : Action σ → Action σ,
      collect_tests (mapBodies g S) =
        (collect_tests S).map fun t => { t with run := g t.run }) := by
  refine ⟨?_, ?_, ?_, fun inh => rfl, ?_⟩
  · simp only [collect_tests]
    induction S.members with
    | nil => rfl
    | cons m ms ih =>
        rw [List.filterMap_cons, List.filter_cons]
        by_cases h : (m.2.callable && m.1.startsWith "test_") = true
        · rw [if_pos h, if_pos h]
          simpa using ih
        · rw [if_neg h, if_neg h]
          exact ih
  · simp only [collect_tests]
    induction S.members with
    | nil => rfl
    | cons m ms ih =>
        rw [List.filterMap_cons, List.filter_cons]
        by_cases h : (m.2.callable && m.1.startsWith "test_") = true
        · rw [if_pos h, if_pos h]
          simpa using ih
        · rw [if_neg h, if_neg h]
          exact ih
  · intro t ht
    simp only [collect_tests, List.mem_filterMap] at ht
    obtain ⟨m, hm, hsome⟩ := ht
    by_cases h : (m.2.callable && m.1.startsWith "test_") = true
    · rw [if_pos h] at hsome
      cases hsome
      exact ⟨rfl, rfl, rfl, rfl⟩
    · rw [if_neg h] at hsome
      cases hsome
  · intro g
    simp only [collect_tests, mapBodies]
    induction S.members with
    | nil => rfl
    | cons m ms ih =>
        rw [List.map_cons, List.filterMap_cons, List.filterMap_cons]
        by_cases h : (m.2.callable && m.1.startsWith "test_") = true
        · rw [if_pos h, if_pos h, List.map_cons]
          rw [ih]
        · rw [if_neg h, if_neg h]
          exact ih

end Aamm
namespace Aamm

/-- A suite whose hooks never raise runs to completion: nothing escapes and
the mutated list has the same length as the input. -/
theorem runSuite_ok {σ : Type} (S : Suite σ) (hS : HooksOk S) (ts : List (Test σ))
    (entropy : Nat) (seed : Option Nat) (c0 : Nat) :
    (runSuite S ts entropy seed c0).escaped = none ∧
    (runSuite S ts entropy seed c0).tests.length = ts.length := by
  obtain ⟨hb, ha, hi, ht⟩ := hS
  obtain ⟨hevent, htests, hescape⟩ := runSuite_decompose S ts entropy seed c0 hi ht
  obtain ⟨resc, rlen, _⟩ :=
    runTests_ok S hb ha (pyShuffle (seed.getD entropy) ts)
      (S.initializeHook S.construct).1 (c0 + (S.initializeHook S.construct).2.1)
  exact ⟨by rw [hescape]; exact resc,
    by rw [htests, rlen]; exact length_pyShuffle _ _⟩

theorem length_insertTest {σ : Type} (x : Test σ) :
    ∀ l : List (Test σ), (insertTest x l).length = l.length + 1 := by
  intro l
  induction l with
  | nil => rfl
  | cons y ys ih =>
      rw [insertTest]
      by_cases h : testLt x y = true
      · rw [if_pos h]
        rfl
      · rw [if_neg h]
        simp [ih]

/-- Sorting the report does not lose or duplicate test records. -/
theorem length_sortTests {σ : Type} (l : List (Test σ)) :
    (sortTests l).length = l.length := by
  induction l with
  | nil => rfl
  | cons x xs ih =>
      show (insertTest x (sortTests xs)).length = xs.length + 1
      rw [length_insertTest, ih]

/-- When every registered suite's hooks are well behaved, the whole batch
runs without raising and produces one record per collected test. -/
theorem runAllSuites_ok {σ : Type} (entropy : Nat) (seed : Option Nat) :
    ∀ (suites : List (Suite σ)) (c : Nat), (∀ S ∈ suites, HooksOk S) →
      ∃ (ts : List (Test σ)) (c' : Nat),
        runAllSuites entropy seed suites c = .ok (ts, c') ∧
        ts.length = totalTests suites := by
  intro suites
  induction suites with
  | nil => intro c _; exact ⟨[], c, rfl, rfl⟩
  | cons S rest ih =>
      intro c h
      obtain ⟨hesc, hlen⟩ :=
        runSuite_ok S (h S (by simp)) (collect_tests S) entropy seed c
      obtain ⟨ts, c', hrec, hlen'⟩ :=
        ih (runSuite S (collect_tests S) entropy seed c).clock
          (fun X hX => h X (by simp [hX]))
      refine ⟨(runSuite S (collect_tests S) entropy seed c).tests ++ ts, c', ?_, ?_⟩
      · rw [runAllSuites, hesc, hrec]
      · rw [List.length_append, hlen, hlen']
        simp [totalTests]

/-- The discovery loop records exactly the failing imports, per path, and
registers exactly the suites of the succeeding imports. -/
theorem discoverImports_spec {σ : Type} :
    ∀ cands : List (String × Except PyExn (List (Suite σ))),
      (discoverImports cands).2 =
        (cands.filterMap fun pr => match pr.2 with
          | .error e => some (pr.1, e)
          | .ok _ => none) ∧
      (discoverImports cands).1 =
        (cands.filterMap fun pr => match pr.2 with
          | .ok ss => some ss
          | .error _ => none).flatten := by
  intro cands
  induction cands with
  | nil => exact ⟨rfl, rfl⟩
  | cons pr rest ih =>
      obtain ⟨p, res⟩ := pr
      cases res with
      | ok ss =>
          refine ⟨?_, ?_⟩
          · simpa [discoverImports, List.filterMap_cons] using ih.1
          · simp [discoverImports, List.filterMap_cons, ih.2]
      | error e =>
          refine ⟨?_, ?_⟩
          · simp [discoverImports, List.filterMap_cons, ih.1]
          · simpa [discoverImports, List.filterMap_cons] using ih.2

/-- Every registered suite came from a succeeding import. -/
theorem mem_discoverImports {σ : Type} :
    ∀ (cands : List (String × Except PyExn (List (Suite σ)))) (S : Suite σ),
      S ∈ (discoverImports cands).1 →
      ∃ (p : String) (ss : List (Suite σ)), (p, Except.ok ss) ∈ cands ∧ S ∈ ss := by
  intro cands
  induction cands with
  | nil => intro S hS; simp [discoverImports] at hS
  | cons pr rest ih =>
      intro S hS
      obtain ⟨p, res⟩ := pr
      cases res with
      | ok ss =>
          rw [discoverImports] at hS
          rcases List.mem_append.mp hS with hin | hin
          · exact ⟨p, ss, by simp, hin⟩
          · obtain ⟨p', ss', hmem, hin'⟩ := ih S hin
            exact ⟨p', ss', by simp [hmem], hin'⟩
      | error e =>
          rw [discoverImports] at hS
          obtain ⟨p', ss', hmem, hin'⟩ := ih S hS
          exact ⟨p', ss', by simp [hmem], hin'⟩

end Aamm

namespace Aamm

/-! ### Claim C2 — discovery failures are contained, the report is complete -/

/-- Claim C2: over any list of discovered candidate test files — each either
registering its suites on import or raising — the aggregator never raises
(provided the registered suites' hooks are well behaved, since only hook
failures escape the runner): every import failure is recorded against its
file's path, in order, in the returned discovery-error table; importing
continues past failures; and the returned report is complete, one record per
collected test of every registered suite. -/
theorem main_records_discovery_failures (σ : Type)
    (cands : List (String × Except PyExn (List (Suite σ))))
    (entropy : Nat) (seed : Option Nat) (c0 : Nat)
    (hok : ∀ (p : String) (ss : List (Suite σ)),
      (p, Except.ok ss) ∈ cands → ∀ S ∈ ss, HooksOk S) :
    ∃ report : List (Test σ),
      mainModel cands entropy seed c0 =
        .ok (report,
          cands.filterMap fun pr => match pr.2 with
            | .error e => some (pr.1, e)
            | .ok _ => none) ∧
      report.length = totalTests (discoverImports cands).1 := by
  have hreg : ∀ S ∈ (discoverImports cands).1, HooksOk S := by
    intro S hS
    obtain ⟨p, ss, hmem, hin⟩ := mem_discoverImports cands S hS
    exact hok p ss hmem S hin
  obtain ⟨ts, c', hrun, hlen⟩ :=
    runAllSuites_ok entropy seed (discoverImports cands).1 c0 hreg
  refine ⟨sortTests ts, ?_, ?_⟩
  · show (match runAllSuites entropy seed (discoverImports cands).1 c0 with
      | Except.error e => Except.error e
      | Except.ok (ts, _) => Except.ok (sortTests ts, (discoverImports cands).2)) = _
    rw [hrun, (discoverImports_spec cands).1]
  · rw [length_sortTests]
    exact hlen

/-- Witness for `main_records_discovery_failures` on `candsTwo`: the bad
file's `SyntaxError` lands in the table against its path and the one test of
the suite the good file registers is reported. -/
theorem main_records_discovery_failures_witness :
    (∀ (p : String) (ss : List (Suite Unit)),
      (p, Except.ok ss) ∈ candsTwo → ∀ S ∈ ss, HooksOk S) ∧
    ∃ report : List (Test Unit),
      mainModel candsTwo 0 (some 0) 0 =
        .ok (report,
          candsTwo.filterMap fun pr => match pr.2 with
            | .error e => some (pr.1, e)
            | .ok _ => none) ∧
      report.length = totalTests (discoverImports candsTwo).1 := by
  have hok : ∀ (p : String) (ss : List (Suite Unit)),
      (p, Except.ok ss) ∈ candsTwo → ∀ S ∈ ss, HooksOk S := by
    intro p ss hmem S hS
    simp only [candsTwo, List.mem_cons, List.not_mem_nil, or_false,
      Prod.mk.injEq] at hmem
    rcases hmem with ⟨hp, hss⟩ | ⟨hp, hss⟩
    · exact absurd hss (by simp)
    · have : ss = [suiteOneTest] := by
        exact (Except.ok.injEq _ _).mp hss
      subst this
      simp only [List.mem_cons, List.not_mem_nil, or_false] at hS
      subst hS
      exact ⟨fun s => rfl, fun s => rfl, fun s => rfl, fun s => rfl⟩
  exact ⟨hok, main_records_discovery_failures Unit candsTwo 0 (some 0) 0 hok⟩

end Aamm
